import Mathlib

/-!
Shallow embedding of `src/Dataset/VQAv2.py`, the VQA v2 loading script.
The verified core is `_generate_examples`: it parses a questions file and an
optional annotations file, joins questions to annotations by `question_id`,
validates both field sets, attaches a COCO image path, and yields one
`(question_id, record)` pair per question.

JSON objects (Python dicts produced by `json.load`) are modelled as
association lists together with Python-dict operations (`PyDict.find`,
`PyDict.set`, `PyDict.update`): an existing key keeps its position and gets
the new value, a new key is appended.  The values occurring in the VQA v2
data model are null, integers, strings and the `answers` array of
`{answer, answer_confidence, answer_id}` objects, so the value universe
`JVal` has exactly those constructors.  Exceptions (KeyError on a dict
access, AssertionError from the field-set asserts, TypeError from formatting
a non-int/str value) become `Except GenError`; the generator protocol, where
an exception aborts the split after the records already yielded, becomes
`GenOutput`: the list of emitted pairs plus an optional fatal error.
-/

/-- One element of the `answers` array of an annotation:
`{"answer": ..., "answer_confidence": ..., "answer_id": ...}`. -/
structure Answer where
  answer : String
  answer_confidence : String
  answer_id : Int
  deriving DecidableEq, Repr

/-- JSON values occurring in the VQA v2 questions/annotations files. -/
inductive JVal where
  | jnull
  | jint (n : Int)
  | jstr (s : String)
  | janswers (xs : List Answer)
  deriving DecidableEq, Repr

namespace PyDict

/-- Lookup `m[k]` as a total function: the value of the first (for a genuine dict,
the only) pair whose key is `k`. -/
def find {κ α : Type} [DecidableEq κ] : List (κ × α) → κ → Option α
  | [], _ => none
  | (k', v) :: rest, k => if k' = k then some v else find rest k

/-- Assignment `m[k] = v`: an existing key keeps its position and gets the new value,
a new key is appended (Python dict assignment). -/
def set {κ α : Type} [DecidableEq κ] (m : List (κ × α)) (k : κ) (v : α) :
    List (κ × α) :=
  if m.any (fun p => decide (p.1 = k)) then
    m.map (fun p => if p.1 = k then (k, v) else p)
  else m ++ [(k, v)]

/-- Python `m.update(u)`: assign every pair of `u` into `m`, in order. -/
def update {κ α : Type} [DecidableEq κ] (m u : List (κ × α)) : List (κ × α) :=
  u.foldl (fun acc p => PyDict.set acc p.1 p.2) m

/-- Python `list(m.keys())`. -/
def keys {κ α : Type} (m : List (κ × α)) : List κ := m.map Prod.fst

end PyDict

/-- A parsed JSON object (Python dict): keys in insertion order. -/
abbrev Obj := List (String × JVal)

/-- The per-split map `qa : question_id → annotation`. -/
abbrev QAMap := List (JVal × Obj)

/-- The ways `_generate_examples` can die: a `KeyError` on a field access
`d["k"]`, a `KeyError` on the `qa[question_id]` join lookup, a failed
`assert` (field-set validation), or a `TypeError` from formatting a value
that supports no `0>12` format spec. -/
inductive GenError where
  | keyError (k : String)
  | qaKeyError (k : JVal)
  | assertError
  | formatError
  deriving DecidableEq, Repr

/-- Test `set(d.keys()) ^ set(l)` empty: the field set of `o` equals the set
of names in `l` (the script's assert pattern). -/
def keySetEq (o : Obj) (l : List String) : Bool :=
  (PyDict.keys o).all (fun s => decide (s ∈ l)) &&
    l.all (fun s => decide (s ∈ PyDict.keys o))

/-- The exact field set a Question must have (lines 159-165). -/
def questionKeys : List String := ["image_id", "question", "question_id"]

/-- The exact field set an Annotation must have (lines 166-181). -/
def annotationKeys : List String :=
  ["question_type", "multiple_choice_answer", "answers", "image_id",
   "answer_type", "question_id"]

/-- The field set of a record emitted by the annotated branch:
Question fields, Annotation fields, plus `image`. -/
def recordKeys : List String :=
  ["image_id", "question", "question_id", "question_type",
   "multiple_choice_answer", "answers", "answer_type", "image"]

/-- Python `f"{s:0>12}"` on the string `s`: pad with `'0'` on the left to
width 12 (no truncation of longer strings). -/
def padZeroTo12 (s : String) : String :=
  if 12 ≤ s.length then s
  else String.mk (List.replicate (12 - s.length) '0') ++ s

/-- Python `f"{v:0>12}"`: ints format via their decimal string, strings
directly; `None` and lists raise `TypeError`. -/
def formatField12 : JVal → Except GenError String
  | JVal.jint n => Except.ok (padZeroTo12 (toString n))
  | JVal.jstr s => Except.ok (padZeroTo12 s)
  | _ => Except.error GenError.formatError

/-- Python `pathlib.Path(p).name`: the part of `p` after the last `'/'`. -/
def pathBasename (p : String) : String :=
  String.mk (p.toList.foldl (fun acc c => if c = '/' then [] else acc ++ [c]) [])

/-- Value of `str(images_path / f"COCO_{images_path.name}_{pad}.jpg")`. -/
def imageFileName (imagesPath : String) (pad : String) : String :=
  imagesPath ++ "/" ++ ("COCO_" ++ pathBasename imagesPath ++ "_" ++ pad ++ ".jpg")

/-- Lines 152-154: `qa = {ann["question_id"]: [] for ann in anns}` followed by
`for ann in anns: qa[ann["question_id"]] = ann` — a map from `question_id`
to annotation, last write wins; an annotation without `question_id` raises
`KeyError`.  (The `[]` placeholders of the comprehension are all overwritten
by the loop before any lookup, so only the final map is observable.) -/
def buildQAFrom (m : QAMap) : List Obj → Except GenError QAMap
  | [] => Except.ok m
  | a :: t =>
    match PyDict.find a "question_id" with
    | some qid => buildQAFrom (PyDict.set m qid a) t
    | none => Except.error (GenError.keyError "question_id")

/-- The `qa` map built from the whole annotations list. -/
def buildQA (anns : List Obj) : Except GenError QAMap := buildQAFrom [] anns

/-- Lines 156-188, one loop iteration of the annotated branch:
look up the annotation (`qa[question["question_id"]]`), assert both exact
field sets, merge (`record = question; record.update(ann)` — the record
aliases the question), attach the image path, and yield
`(question["question_id"], record)` — read from the mutated dict. -/
def processQuestion (qa : QAMap) (imagesPath : String) (q : Obj) :
    Except GenError (JVal × Obj) :=
  match PyDict.find q "question_id" with
  | none => Except.error (GenError.keyError "question_id")
  | some qid =>
    match PyDict.find qa qid with
    | none => Except.error (GenError.qaKeyError qid)
    | some ann =>
      if keySetEq q questionKeys then
        if keySetEq ann annotationKeys then
          match PyDict.find (PyDict.update q ann) "image_id" with
          | none => Except.error (GenError.keyError "image_id")
          | some iid =>
            match formatField12 iid with
            | Except.error e => Except.error e
            | Except.ok pad =>
              match PyDict.find (PyDict.set (PyDict.update q ann) "image"
                  (JVal.jstr (imageFileName imagesPath pad))) "question_id" with
              | none => Except.error (GenError.keyError "question_id")
              | some key =>
                Except.ok (key, PyDict.set (PyDict.update q ann) "image"
                  (JVal.jstr (imageFileName imagesPath pad)))
        else Except.error GenError.assertError
      else Except.error GenError.assertError

/-- The `{"question_type": None, ...}` dict merged into every question of a
split without annotations (lines 192-199). -/
def absentNullFields : Obj :=
  [("question_type", JVal.jnull), ("multiple_choice_answer", JVal.jnull),
   ("answers", JVal.jnull), ("answer_type", JVal.jnull)]

/-- Lines 191-204, one loop iteration of the no-annotations branch:
`question.update({four fields: None})`, attach the image path, and yield
`(question["question_id"], question)` — no field-set validation. -/
def processQuestionNoAnn (imagesPath : String) (q : Obj) :
    Except GenError (JVal × Obj) :=
  match PyDict.find (PyDict.update q absentNullFields) "image_id" with
  | none => Except.error (GenError.keyError "image_id")
  | some iid =>
    match formatField12 iid with
    | Except.error e => Except.error e
    | Except.ok pad =>
      match PyDict.find (PyDict.set (PyDict.update q absentNullFields) "image"
          (JVal.jstr (imageFileName imagesPath pad))) "question_id" with
      | none => Except.error (GenError.keyError "question_id")
      | some key =>
        Except.ok (key, PyDict.set (PyDict.update q absentNullFields) "image"
          (JVal.jstr (imageFileName imagesPath pad)))

/-- What draining the generator for one split produces: the pairs yielded
before any exception, and the fatal exception if one was raised. -/
structure GenOutput where
  emitted : List (JVal × Obj)
  err : Option GenError
  deriving DecidableEq, Repr

/-- Drain the per-question loop: process questions in file order, stopping
at the first exception. -/
def emitAll (f : Obj → Except GenError (JVal × Obj)) : List Obj → GenOutput
  | [] => ⟨[], none⟩
  | q :: qs =>
    match f q with
    | Except.error e => ⟨[], some e⟩
    | Except.ok kr =>
      let rest := emitAll f qs
      ⟨kr :: rest.emitted, rest.err⟩

/-- `_generate_examples` for one split, applied to the parsed `questions`
list, the optional parsed `annotations` list, and the images directory
path. -/
def generateExamples (imagesPath : String) (questions : List Obj)
    (annotations : Option (List Obj)) : GenOutput :=
  match annotations with
  | some anns =>
    match buildQA anns with
    | Except.error e => ⟨[], some e⟩
    | Except.ok qa => emitAll (processQuestion qa imagesPath) questions
  | none => emitAll (processQuestionNoAnn imagesPath) questions

/-! ## Concrete data (the worked example of the spec, and variants) -/

/-- The questions entry `{"question_id": 1, "image_id": 9, "question": "What?"}`. -/
def exQ : Obj :=
  [("question_id", JVal.jint 1), ("image_id", JVal.jint 9),
   ("question", JVal.jstr "What?")]

/-- A second questions entry, with `question_id` 2. -/
def exQ2 : Obj :=
  [("question_id", JVal.jint 2), ("image_id", JVal.jint 8),
   ("question", JVal.jstr "Who?")]

/-- The questions entry `exQ` with an extra undeclared field. -/
def exQExtra : Obj :=
  [("question_id", JVal.jint 1), ("image_id", JVal.jint 9),
   ("question", JVal.jstr "What?"), ("extra", JVal.jint 0)]

/-- The annotations entry of the spec's worked example (question_id 1). -/
def exAnn : Obj :=
  [("question_id", JVal.jint 1), ("image_id", JVal.jint 9),
   ("question_type", JVal.jstr "what"),
   ("multiple_choice_answer", JVal.jstr "a"),
   ("answers", JVal.janswers [⟨"a", "yes", 1⟩]),
   ("answer_type", JVal.jstr "other")]

/-- A second annotations entry, matching `exQ2` (question_id 2). -/
def exAnn2 : Obj :=
  [("question_id", JVal.jint 2), ("image_id", JVal.jint 8),
   ("question_type", JVal.jstr "who"),
   ("multiple_choice_answer", JVal.jstr "b"),
   ("answers", JVal.janswers [⟨"b", "yes", 1⟩]),
   ("answer_type", JVal.jstr "other")]

/-- A duplicate annotations entry for question_id 1 with different content. -/
def exAnnDup : Obj :=
  [("question_id", JVal.jint 1), ("image_id", JVal.jint 9),
   ("question_type", JVal.jstr "what color"),
   ("multiple_choice_answer", JVal.jstr "c"),
   ("answers", JVal.janswers [⟨"c", "maybe", 2⟩]),
   ("answer_type", JVal.jstr "other")]

/-- The `qa` map built from `[exAnn]`. -/
def exQA : QAMap := [(JVal.jint 1, exAnn)]

/-- The `qa` map built from `[exAnn, exAnn2]`. -/
def exQAB : QAMap := [(JVal.jint 1, exAnn), (JVal.jint 2, exAnn2)]

/-- The record emitted for `exQ` joined with `exAnn`, images directory
`"root/val2014"`: exactly the merged object of the spec's worked example. -/
def exRecordVal : Obj :=
  [("question_id", JVal.jint 1), ("image_id", JVal.jint 9),
   ("question", JVal.jstr "What?"),
   ("question_type", JVal.jstr "what"),
   ("multiple_choice_answer", JVal.jstr "a"),
   ("answers", JVal.janswers [⟨"a", "yes", 1⟩]),
   ("answer_type", JVal.jstr "other"),
   ("image", JVal.jstr "root/val2014/COCO_val2014_000000000009.jpg")]

/-- The record emitted for `exQ` on a split without annotations, images
directory `"root/test2015"`. -/
def exRecordTest : Obj :=
  [("question_id", JVal.jint 1), ("image_id", JVal.jint 9),
   ("question", JVal.jstr "What?"),
   ("question_type", JVal.jnull), ("multiple_choice_answer", JVal.jnull),
   ("answers", JVal.jnull), ("answer_type", JVal.jnull),
   ("image", JVal.jstr "root/test2015/COCO_test2015_000000000009.jpg")]

/-! ## Python-dict lemmas -/

namespace PyDict

theorem keys_cons {κ α : Type} (p : κ × α) (t : List (κ × α)) :
    keys (p :: t) = p.1 :: keys t := rfl

variable {κ α : Type} [DecidableEq κ]

theorem find_eq_none {m : List (κ × α)} {k : κ} (h : k ∉ keys m) :
    find m k = none := by
  induction m with
  | nil => rfl
  | cons p t ih =>
    obtain ⟨k', v⟩ := p
    rw [keys_cons, List.mem_cons] at h
    push_neg at h
    have h1 : ¬ (k' = k) := fun e => h.1 e.symm
    simp [find, h1, ih h.2]

theorem find_append {m₁ m₂ : List (κ × α)} {k : κ} :
    find (m₁ ++ m₂) k = (find m₁ k).or (find m₂ k) := by
  induction m₁ with
  | nil => simp [find]
  | cons p t ih =>
    obtain ⟨k', v⟩ := p
    by_cases hk : k' = k <;> simp [find, hk, ih]

theorem any_key_iff {m : List (κ × α)} {k : κ} :
    m.any (fun p => decide (p.1 = k)) = true ↔ k ∈ keys m := by
  rw [List.any_eq_true]
  constructor
  · rintro ⟨p, hp, hpk⟩
    have hk : p.1 = k := of_decide_eq_true hpk
    exact hk ▸ List.mem_map_of_mem Prod.fst hp
  · intro hk
    obtain ⟨p, hp, hpk⟩ := List.mem_map.mp hk
    exact ⟨p, hp, decide_eq_true hpk⟩

theorem keys_set_of_mem {m : List (κ × α)} {k : κ} {v : α}
    (h : m.any (fun p => decide (p.1 = k)) = true) :
    keys (set m k v) = keys m := by
  simp only [set, if_pos h, keys, List.map_map]
  apply List.map_congr_left
  intro p _
  by_cases hp : p.1 = k
  · simp [hp]
  · simp [hp]

theorem mem_keys_set {m : List (κ × α)} {k s : κ} {v : α} :
    s ∈ keys (set m k v) ↔ s ∈ keys m ∨ s = k := by
  by_cases h : m.any (fun p => decide (p.1 = k)) = true
  · rw [keys_set_of_mem h]
    have hk : k ∈ keys m := any_key_iff.mp h
    constructor
    · exact Or.inl
    · rintro (hs | rfl)
      · exact hs
      · exact hk
  · rw [set, if_neg h]
    have e1 : keys (m ++ [(k, v)]) = keys m ++ [k] := by simp [keys]
    rw [e1, List.mem_append, List.mem_singleton]

theorem find_map_replace_ne {m : List (κ × α)} {k k' : κ} {v : α} (h : k' ≠ k) :
    find (m.map (fun p => if p.1 = k then (k, v) else p)) k' = find m k' := by
  induction m with
  | nil => rfl
  | cons p t ih =>
    obtain ⟨k₁, w⟩ := p
    rw [List.map_cons]
    by_cases h1 : k₁ = k
    · have e1 : ((if (k₁, w).1 = k then (k, v) else (k₁, w))) = (k, v) := by
        simp [h1]
      rw [e1]
      have hne : ¬ (k = k') := fun e => h e.symm
      have hne1 : ¬ (k₁ = k') := fun e => h (h1 ▸ e).symm
      simp [find, hne, hne1, ih, h1]
    · have e1 : ((if (k₁, w).1 = k then (k, v) else (k₁, w))) = (k₁, w) := by
        simp [h1]
      rw [e1]
      by_cases h2 : k₁ = k'
      · simp [find, h2]
      · simp [find, h2, ih]

theorem find_map_replace_self {m : List (κ × α)} {k : κ} {v : α}
    (h : m.any (fun p => decide (p.1 = k)) = true) :
    find (m.map (fun p => if p.1 = k then (k, v) else p)) k = some v := by
  induction m with
  | nil => simp at h
  | cons p t ih =>
    obtain ⟨k₁, w⟩ := p
    rw [List.map_cons]
    by_cases h1 : k₁ = k
    · have e1 : ((if (k₁, w).1 = k then (k, v) else (k₁, w))) = (k, v) := by
        simp [h1]
      rw [e1]
      simp [find]
    · have e1 : ((if (k₁, w).1 = k then (k, v) else (k₁, w))) = (k₁, w) := by
        simp [h1]
      rw [e1]
      have h2 : t.any (fun p => decide (p.1 = k)) = true := by
        simpa [h1] using h
      simp [find, h1, ih h2]

theorem find_set_self {m : List (κ × α)} {k : κ} {v : α} :
    find (set m k v) k = some v := by
  by_cases h : m.any (fun p => decide (p.1 = k)) = true
  · rw [set, if_pos h]
    exact find_map_replace_self h
  · rw [set, if_neg h, find_append]
    have hk : k ∉ keys m := fun hm => h (any_key_iff.mpr hm)
    rw [find_eq_none hk]
    simp [find]

theorem find_set_ne {m : List (κ × α)} {k k' : κ} {v : α} (h : k' ≠ k) :
    find (set m k v) k' = find m k' := by
  by_cases hany : m.any (fun p => decide (p.1 = k)) = true
  · rw [set, if_pos hany]
    exact find_map_replace_ne h
  · rw [set, if_neg hany, find_append]
    have hne : ¬ (k = k') := fun e => h e.symm
    have e1 : find [(k, v)] k' = none := by simp [find, hne]
    rw [e1]
    exact Option.or_none

theorem find_set_cases {m : List (κ × α)} {k k₀ : κ} {v₀ v : α}
    (h : find (set m k₀ v₀) k = some v) :
    (k = k₀ ∧ v = v₀) ∨ (k ≠ k₀ ∧ find m k = some v) := by
  by_cases hk : k = k₀
  · subst hk
    rw [find_set_self] at h
    exact Or.inl ⟨rfl, (Option.some.inj h).symm⟩
  · rw [find_set_ne hk] at h
    exact Or.inr ⟨hk, h⟩

theorem find_update {u : List (κ × α)} (hu : (keys u).Nodup) {m : List (κ × α)}
    {k : κ} :
    find (update m u) k = (find u k).or (find m k) := by
  induction u generalizing m with
  | nil => simp [update, find]
  | cons p t ih =>
    obtain ⟨k₁, v₁⟩ := p
    have hu' : (k₁ :: keys t).Nodup := hu
    have hk₁ : k₁ ∉ keys t := (List.nodup_cons.mp hu').1
    have hnod : (keys t).Nodup := (List.nodup_cons.mp hu').2
    have hstep : update m ((k₁, v₁) :: t) = update (set m k₁ v₁) t := rfl
    rw [hstep, ih hnod]
    by_cases hk : k = k₁
    · subst hk
      rw [find_set_self, find_eq_none hk₁]
      simp [find, Option.or]
    · rw [find_set_ne hk]
      have hne : ¬ (k₁ = k) := fun e => hk e.symm
      simp [find, hne]

theorem mem_keys_update {u : List (κ × α)} {m : List (κ × α)} {s : κ} :
    s ∈ keys (update m u) ↔ s ∈ keys m ∨ s ∈ keys u := by
  induction u generalizing m with
  | nil => simp [update, keys]
  | cons p t ih =>
    obtain ⟨k₁, v₁⟩ := p
    have hstep : update m ((k₁, v₁) :: t) = update (set m k₁ v₁) t := rfl
    rw [hstep, ih, mem_keys_set, keys_cons, List.mem_cons]
    tauto

end PyDict
/-! ## Field-set and generator lemmas -/

theorem keySetEq_true_iff {o : Obj} {l : List String} :
    keySetEq o l = true ↔ ∀ s, s ∈ PyDict.keys o ↔ s ∈ l := by
  rw [keySetEq, Bool.and_eq_true, List.all_eq_true, List.all_eq_true]
  constructor
  · rintro ⟨h1, h2⟩ s
    constructor
    · intro hs
      exact of_decide_eq_true (h1 s hs)
    · intro hs
      exact of_decide_eq_true (h2 s hs)
  · intro h
    constructor
    · intro s hs
      exact decide_eq_true ((h s).mp hs)
    · intro s hs
      exact decide_eq_true ((h s).mpr hs)

theorem emitAll_length_of_err_none {f : Obj → Except GenError (JVal × Obj)}
    {qs : List Obj} (h : (emitAll f qs).err = none) :
    (emitAll f qs).emitted.length = qs.length := by
  induction qs with
  | nil => simp [emitAll]
  | cons q t ih =>
    cases hf : f q with
    | error e =>
      rw [emitAll, hf] at h
      simp at h
    | ok kr =>
      rw [emitAll, hf] at h ⊢
      simp only [List.length_cons, List.length_cons]
      simp at h ⊢
      exact ih h

theorem emitAll_mem {f : Obj → Except GenError (JVal × Obj)} {qs : List Obj}
    {kr : JVal × Obj} (h : kr ∈ (emitAll f qs).emitted) :
    ∃ q, q ∈ qs ∧ f q = Except.ok kr := by
  induction qs with
  | nil => simp [emitAll] at h
  | cons q t ih =>
    cases hf : f q with
    | error e =>
      rw [emitAll, hf] at h
      simp at h
    | ok kr' =>
      rw [emitAll, hf] at h
      simp only [List.mem_cons] at h
      rcases h with rfl | h
      · exact ⟨q, List.mem_cons_self q t, hf⟩
      · obtain ⟨q', hq', hfq'⟩ := ih h
        exact ⟨q', List.mem_cons_of_mem _ hq', hfq'⟩

theorem emitAll_forall₂ (f : Obj → Except GenError (JVal × Obj))
    (qs : List Obj) :
    List.Forall₂ (fun q kr => f q = Except.ok kr)
      (qs.take (emitAll f qs).emitted.length) (emitAll f qs).emitted := by
  induction qs with
  | nil => simp [emitAll]
  | cons q t ih =>
    cases hf : f q with
    | error e =>
      rw [emitAll, hf]
      simp
    | ok kr =>
      rw [emitAll, hf]
      simp only [List.length_cons, List.take_succ_cons]
      exact List.Forall₂.cons hf ih

theorem emitAll_congr {f g : Obj → Except GenError (JVal × Obj)}
    (h : ∀ q, f q = g q) (qs : List Obj) : emitAll f qs = emitAll g qs := by
  induction qs with
  | nil => rfl
  | cons q t ih => rw [emitAll, emitAll, h q, ih]

theorem emitAll_err_isSome {f : Obj → Except GenError (JVal × Obj)}
    {qs : List Obj} {q : Obj} (hq : q ∈ qs)
    (hbad : ∀ kr, f q ≠ Except.ok kr) :
    (emitAll f qs).err.isSome = true := by
  induction qs with
  | nil => simp at hq
  | cons q' t ih =>
    cases hf : f q' with
    | error e =>
      rw [emitAll, hf]
      rfl
    | ok kr =>
      rw [emitAll, hf]
      rcases List.mem_cons.mp hq with rfl | hmem
      · exact absurd hf (hbad kr)
      · exact ih hmem

theorem emitAll_append_stop {f : Obj → Except GenError (JVal × Obj)}
    {qs₁ qs₂ : List Obj} {q : Obj} {e : GenError}
    (hpre : ∀ q' ∈ qs₁, ∃ kr, f q' = Except.ok kr)
    (hq : f q = Except.error e) :
    (emitAll f (qs₁ ++ q :: qs₂)).err = some e ∧
      (emitAll f (qs₁ ++ q :: qs₂)).emitted.length = qs₁.length := by
  induction qs₁ with
  | nil =>
    rw [List.nil_append, emitAll, hq]
    exact ⟨rfl, rfl⟩
  | cons q' t ih =>
    obtain ⟨kr, hkr⟩ := hpre q' (List.mem_cons_self q' t)
    have ih' := ih (fun x hx => hpre x (List.mem_cons_of_mem _ hx))
    rw [List.cons_append, emitAll, hkr]
    exact ⟨ih'.1, by simp [ih'.2]⟩

/-! ## buildQA lemmas -/

theorem buildQAFrom_spec {anns : List Obj}
    (h : ∀ a ∈ anns, (PyDict.find a "question_id").isSome) (m : QAMap) :
    ∃ qa, buildQAFrom m anns = Except.ok qa ∧ ∀ k : JVal,
      PyDict.find qa k =
        ((anns.filter
          (fun a => decide (PyDict.find a "question_id" = some k))).getLast?).or
          (PyDict.find m k) := by
  induction anns generalizing m with
  | nil =>
    refine ⟨m, rfl, fun k => ?_⟩
    simp
  | cons a t ih =>
    obtain ⟨qid, ha⟩ :=
      Option.isSome_iff_exists.mp (h a (List.mem_cons_self a t))
    have ht : ∀ x ∈ t, (PyDict.find x "question_id").isSome :=
      fun x hx => h x (List.mem_cons_of_mem _ hx)
    obtain ⟨qa, hok, hfind⟩ := ih ht (PyDict.set m qid a)
    refine ⟨qa, ?_, fun k => ?_⟩
    · rw [buildQAFrom, ha]
      exact hok
    · rw [hfind k]
      by_cases hk : qid = k
      · subst hk
        have hfa : (decide (PyDict.find a "question_id" = some qid)) = true := by
          simp [ha]
        rw [List.filter_cons, hfa, if_pos rfl]
        cases hft :
            t.filter (fun x => decide (PyDict.find x "question_id" = some qid)) with
        | nil =>
          simp [PyDict.find_set_self]
        | cons b l =>
          rw [List.getLast?_cons_cons]
          obtain ⟨x, hx⟩ :=
            Option.isSome_iff_exists.mp
              (List.getLast?_isSome.mpr (List.cons_ne_nil b l))
          rw [hx]
          rfl
      · have hfa : (decide (PyDict.find a "question_id" = some k)) = false := by
          rw [ha]
          simp
          exact fun e => hk e
        rw [List.filter_cons, hfa, if_neg Bool.false_ne_true,
          PyDict.find_set_ne (fun e : k = qid => hk e.symm)]

theorem buildQAFrom_invariant {P : Obj → Prop} :
    ∀ (anns : List Obj) (m qa : QAMap),
      buildQAFrom m anns = Except.ok qa →
      (∀ k v, PyDict.find m k = some v →
        PyDict.find v "question_id" = some k ∧ P v) →
      (∀ a ∈ anns, P a) →
      ∀ k v, PyDict.find qa k = some v →
        PyDict.find v "question_id" = some k ∧ P v := by
  intro anns
  induction anns with
  | nil =>
    intro m qa hok hm _
    rw [buildQAFrom] at hok
    cases hok
    exact hm
  | cons a t ih =>
    intro m qa hok hm hP
    rw [buildQAFrom] at hok
    cases ha : PyDict.find a "question_id" with
    | none => rw [ha] at hok; cases hok
    | some qid =>
      rw [ha] at hok
      refine ih (PyDict.set m qid a) qa hok ?_
        (fun x hx => hP x (List.mem_cons_of_mem _ hx))
      intro k v hfind
      rcases PyDict.find_set_cases hfind with ⟨hk1, hv⟩ | ⟨hne, hfm⟩
      · subst hk1
        rw [hv]
        exact ⟨ha, hP a (List.mem_cons_self a t)⟩
      · exact hm k v hfm

/-! ## Per-question lemmas -/

theorem processQuestion_ok_spec {qa : QAMap} {p : String} {q : Obj} {k : JVal}
    {r : Obj} (h : processQuestion qa p q = Except.ok (k, r)) :
    ∃ qid ann iid pad,
      PyDict.find q "question_id" = some qid ∧
      PyDict.find qa qid = some ann ∧
      keySetEq q questionKeys = true ∧
      keySetEq ann annotationKeys = true ∧
      PyDict.find (PyDict.update q ann) "image_id" = some iid ∧
      formatField12 iid = Except.ok pad ∧
      r = PyDict.set (PyDict.update q ann) "image"
            (JVal.jstr (imageFileName p pad)) ∧
      PyDict.find r "question_id" = some k := by
  rw [processQuestion] at h
  cases h1 : PyDict.find q "question_id" with
  | none => simp only [h1] at h; cases h
  | some qid =>
    simp only [h1] at h
    cases h2 : PyDict.find qa qid with
    | none => simp only [h2] at h; cases h
    | some ann =>
      simp only [h2] at h
      by_cases h3 : keySetEq q questionKeys = true
      case neg => rw [if_neg h3] at h; cases h
      rw [if_pos h3] at h
      by_cases h4 : keySetEq ann annotationKeys = true
      case neg => rw [if_neg h4] at h; cases h
      rw [if_pos h4] at h
      cases h5 : PyDict.find (PyDict.update q ann) "image_id" with
      | none => simp only [h5] at h; cases h
      | some iid =>
        simp only [h5] at h
        cases h6 : formatField12 iid with
        | error e => simp only [h6] at h; cases h
        | ok pad =>
          simp only [h6] at h
          cases h7 : PyDict.find (PyDict.set (PyDict.update q ann) "image"
              (JVal.jstr (imageFileName p pad))) "question_id" with
          | none => simp only [h7] at h; cases h
          | some key =>
            simp only [h7] at h
            have h8 := Except.ok.inj h
            have hk : key = k := congrArg Prod.fst h8
            have hr : PyDict.set (PyDict.update q ann) "image"
                (JVal.jstr (imageFileName p pad)) = r := congrArg Prod.snd h8
            subst hk
            subst hr
            exact ⟨qid, ann, iid, pad, rfl, h2, h3, h4, h5, h6, rfl, h7⟩

theorem processQuestionNoAnn_ok_spec {p : String} {q : Obj} {k : JVal}
    {r : Obj} (h : processQuestionNoAnn p q = Except.ok (k, r)) :
    ∃ iid pad,
      PyDict.find (PyDict.update q absentNullFields) "image_id" = some iid ∧
      formatField12 iid = Except.ok pad ∧
      r = PyDict.set (PyDict.update q absentNullFields) "image"
            (JVal.jstr (imageFileName p pad)) ∧
      PyDict.find r "question_id" = some k := by
  rw [processQuestionNoAnn] at h
  cases h5 : PyDict.find (PyDict.update q absentNullFields) "image_id" with
  | none => simp only [h5] at h; cases h
  | some iid =>
    simp only [h5] at h
    cases h6 : formatField12 iid with
    | error e => simp only [h6] at h; cases h
    | ok pad =>
      simp only [h6] at h
      cases h7 : PyDict.find (PyDict.set (PyDict.update q absentNullFields)
          "image" (JVal.jstr (imageFileName p pad))) "question_id" with
      | none => simp only [h7] at h; cases h
      | some key =>
        simp only [h7] at h
        have h8 := Except.ok.inj h
        have hk : key = k := congrArg Prod.fst h8
        have hr : PyDict.set (PyDict.update q absentNullFields) "image"
            (JVal.jstr (imageFileName p pad)) = r := congrArg Prod.snd h8
        subst hk
        subst hr
        exact ⟨iid, pad, rfl, h6, rfl, h7⟩

theorem processQuestion_not_ok_of_bad_q {qa : QAMap} {p : String} {q : Obj}
    (hbad : keySetEq q questionKeys = false) :
    ∀ kr, processQuestion qa p q ≠ Except.ok kr := by
  rintro ⟨k, r⟩ h
  obtain ⟨qid, ann, iid, pad, h1, h2, h3, _⟩ := processQuestion_ok_spec h
  rw [hbad] at h3
  cases h3

theorem processQuestion_not_ok_of_bad_ann {qa : QAMap} {p : String} {q : Obj}
    {qid : JVal} {ann : Obj}
    (hqid : PyDict.find q "question_id" = some qid)
    (hann : PyDict.find qa qid = some ann)
    (hbad : keySetEq ann annotationKeys = false) :
    ∀ kr, processQuestion qa p q ≠ Except.ok kr := by
  rintro ⟨k, r⟩ h
  obtain ⟨qid', ann', iid, pad, h1, h2, h3, h4, _⟩ := processQuestion_ok_spec h
  rw [hqid] at h1
  cases h1
  rw [hann] at h2
  cases h2
  rw [hbad] at h4
  cases h4

theorem processQuestion_qaKeyError {qa : QAMap} {p : String} {q : Obj}
    {qid : JVal}
    (hqid : PyDict.find q "question_id" = some qid)
    (hmiss : PyDict.find qa qid = none) :
    processQuestion qa p q = Except.error (GenError.qaKeyError qid) := by
  simp only [processQuestion, hqid, hmiss]

theorem processQuestion_congr {qa qa' : QAMap}
    (h : ∀ k, PyDict.find qa k = PyDict.find qa' k) (p : String) (q : Obj) :
    processQuestion qa p q = processQuestion qa' p q := by
  cases h1 : PyDict.find q "question_id" with
  | none => simp only [processQuestion, h1]
  | some qid => simp only [processQuestion, h1, h qid]

/-- If mapping `g` over `l` yields pairwise-distinct results, at most one
element of `l` satisfies `g a = c`. -/
theorem length_filter_le_one_of_map_nodup {β γ : Type} [DecidableEq γ]
    {l : List β} {g : β → γ} (h : (l.map g).Nodup) (c : γ) :
    (l.filter (fun a => decide (g a = c))).length ≤ 1 := by
  induction l with
  | nil => simp
  | cons a t ih =>
    rw [List.map_cons] at h
    have hcons := List.nodup_cons.mp h
    rw [List.filter_cons]
    by_cases ha : g a = c
    · rw [decide_eq_true ha, if_pos rfl]
      have hnil : t.filter (fun x => decide (g x = c)) = [] := by
        rw [List.filter_eq_nil_iff]
        intro b hb hbc
        have hgb : g b = c := of_decide_eq_true hbc
        exact hcons.1 (by rw [ha, ← hgb]; exact List.mem_map_of_mem g hb)
      rw [hnil]
      simp
    · rw [decide_eq_false ha, if_neg Bool.false_ne_true]
      exact ih hcons.2

/-- Two lists with at most one element each that are permutations of each
other are equal. -/
theorem perm_eq_of_length_le_one {β : Type} {l₁ l₂ : List β}
    (hp : l₁.Perm l₂) (h : l₁.length ≤ 1) : l₁ = l₂ := by
  cases l₁ with
  | nil => exact hp.nil_eq
  | cons a t =>
    cases t with
    | nil => exact List.singleton_perm.mp hp
    | cons b t' => simp at h

/-- Dispatch: annotated split with a well-built qa map. -/
theorem generateExamples_some_ok {anns : List Obj} {qa : QAMap}
    (hqa : buildQA anns = Except.ok qa) (p : String) (qs : List Obj) :
    generateExamples p qs (some anns) = emitAll (processQuestion qa p) qs := by
  rw [generateExamples, hqa]

/-- Dispatch: annotated split whose qa map construction failed. -/
theorem generateExamples_some_err {anns : List Obj} {e : GenError}
    (hqa : buildQA anns = Except.error e) (p : String) (qs : List Obj) :
    generateExamples p qs (some anns) = ⟨[], some e⟩ := by
  rw [generateExamples, hqa]

/-- Dispatch: split without annotations. -/
theorem generateExamples_none (p : String) (qs : List Obj) :
    generateExamples p qs none = emitAll (processQuestionNoAnn p) qs := rfl

/-- C5: for every split, with or without annotations, if generation does not
abort then the number of emitted (key, record) pairs equals the number of
entries in the questions list. -/
theorem emitted_count_eq_questions (p : String) (qs : List Obj)
    (annsOpt : Option (List Obj))
    (h : (generateExamples p qs annsOpt).err = none) :
    (generateExamples p qs annsOpt).emitted.length = qs.length := by
  cases annsOpt with
  | none =>
    rw [generateExamples_none] at h ⊢
    exact emitAll_length_of_err_none h
  | some anns =>
    cases hqa : buildQA anns with
    | error e =>
      rw [generateExamples_some_err hqa] at h
      cases h
    | ok qa =>
      rw [generateExamples_some_ok hqa] at h ⊢
      exact emitAll_length_of_err_none h

/-- C5 witness: the one-question annotated example emits exactly one pair. -/
theorem emitted_count_eq_questions_witness :
    (generateExamples "root/val2014" [exQ] (some [exAnn])).emitted.length =
      [exQ].length :=
  emitted_count_eq_questions "root/val2014" [exQ] (some [exAnn]) (by decide)

/-- C2: every emitted record's `image` field is the images directory path
joined with `COCO_{basename}_{image_id padded to width 12 with zeros}.jpg`,
where the id that is padded is the record's own `image_id`. -/
theorem emitted_image_path (p : String) (qs : List Obj)
    (annsOpt : Option (List Obj)) (k : JVal) (r : Obj)
    (hmem : (k, r) ∈ (generateExamples p qs annsOpt).emitted) :
    ∃ iid pad, PyDict.find r "image_id" = some iid ∧
      formatField12 iid = Except.ok pad ∧
      PyDict.find r "image" = some (JVal.jstr (imageFileName p pad)) := by
  cases annsOpt with
  | none =>
    rw [generateExamples_none] at hmem
    obtain ⟨q, hq, hok⟩ := emitAll_mem hmem
    obtain ⟨iid, pad, h1, h2, hr, h4⟩ := processQuestionNoAnn_ok_spec hok
    subst hr
    refine ⟨iid, pad, ?_, h2, ?_⟩
    · rw [PyDict.find_set_ne (by decide)]
      exact h1
    · rw [PyDict.find_set_self]
  | some anns =>
    cases hqa : buildQA anns with
    | error e =>
      rw [generateExamples_some_err hqa] at hmem
      cases hmem
    | ok qa =>
      rw [generateExamples_some_ok hqa] at hmem
      obtain ⟨q, hq, hok⟩ := emitAll_mem hmem
      obtain ⟨qid, ann, iid, pad, h1, h2, h3, h4, h5, h6, hr, h8⟩ :=
        processQuestion_ok_spec hok
      subst hr
      refine ⟨iid, pad, ?_, h6, ?_⟩
      · rw [PyDict.find_set_ne (by decide)]
        exact h5
      · rw [PyDict.find_set_self]

/-- C2 witness: the worked example, image_id 9, images directory
`root/val2014` — the filename component is `COCO_val2014_000000000009.jpg`. -/
theorem emitted_image_path_witness :
    (∃ iid pad, PyDict.find exRecordVal "image_id" = some iid ∧
      formatField12 iid = Except.ok pad ∧
      PyDict.find exRecordVal "image" =
        some (JVal.jstr (imageFileName "root/val2014" pad))) ∧
    PyDict.find exRecordVal "image" =
      some (JVal.jstr "root/val2014/COCO_val2014_000000000009.jpg") :=
  ⟨emitted_image_path "root/val2014" [exQ] (some [exAnn]) (JVal.jint 1)
      exRecordVal (by decide),
    by decide⟩

/-- C6: on a split generated without an annotations path, every emitted
record carries the four annotation-derived fields with the explicit `None`
marker (not omitted). -/
theorem test_split_absent_markers (p : String) (qs : List Obj) (k : JVal)
    (r : Obj) (hmem : (k, r) ∈ (generateExamples p qs none).emitted) :
    PyDict.find r "question_type" = some JVal.jnull ∧
    PyDict.find r "multiple_choice_answer" = some JVal.jnull ∧
    PyDict.find r "answers" = some JVal.jnull ∧
    PyDict.find r "answer_type" = some JVal.jnull := by
  rw [generateExamples_none] at hmem
  obtain ⟨q, hq, hok⟩ := emitAll_mem hmem
  obtain ⟨iid, pad, h1, h2, hr, h4⟩ := processQuestionNoAnn_ok_spec hok
  subst hr
  refine ⟨?_, ?_, ?_, ?_⟩ <;>
  · rw [PyDict.find_set_ne (by decide), PyDict.find_update (by decide)]
    rfl

/-- C6 witness: the concrete test-split record carries the four nulls. -/
theorem test_split_absent_markers_witness :
    PyDict.find exRecordTest "question_type" = some JVal.jnull ∧
    PyDict.find exRecordTest "multiple_choice_answer" = some JVal.jnull ∧
    PyDict.find exRecordTest "answers" = some JVal.jnull ∧
    PyDict.find exRecordTest "answer_type" = some JVal.jnull :=
  test_split_absent_markers "root/test2015" [exQ] (JVal.jint 1) exRecordTest
    (by decide)

/-- C10: on a split generated with an annotations path, every emitted
record's field set is exactly the eight names of `recordKeys`. -/
theorem record_field_set_exact (p : String) (qs anns : List Obj) (k : JVal)
    (r : Obj) (hmem : (k, r) ∈ (generateExamples p qs (some anns)).emitted) :
    keySetEq r recordKeys = true := by
  cases hqa : buildQA anns with
  | error e =>
    rw [generateExamples_some_err hqa] at hmem
    cases hmem
  | ok qa =>
    rw [generateExamples_some_ok hqa] at hmem
    obtain ⟨q, hq, hok⟩ := emitAll_mem hmem
    obtain ⟨qid, ann, iid, pad, h1, h2, h3, h4, h5, h6, hr, h8⟩ :=
      processQuestion_ok_spec hok
    subst hr
    rw [keySetEq_true_iff]
    intro s
    rw [PyDict.mem_keys_set, PyDict.mem_keys_update]
    have hq3 := (keySetEq_true_iff.mp h3) s
    have ha4 := (keySetEq_true_iff.mp h4) s
    rw [hq3, ha4]
    simp only [questionKeys, annotationKeys, recordKeys, List.mem_cons,
      List.mem_singleton, List.not_mem_nil, or_false]
    itauto

/-- C10 witness: the worked example's emitted record has exactly the eight
fields. -/
theorem record_field_set_exact_witness : keySetEq exRecordVal recordKeys = true :=
  record_field_set_exact "root/val2014" [exQ] [exAnn] (JVal.jint 1) exRecordVal
    (by decide)

/-- C1 counterexample: on a split without annotations (test/test-dev), a
questions entry with an extra undeclared field does NOT fail: the record is
emitted and no error is raised, contradicting the claim's "for every split".
-/
theorem fieldset_validation_counterexample :
    keySetEq exQExtra questionKeys = false ∧
    (generateExamples "root/test2015" [exQExtra] none).err = none ∧
    (generateExamples "root/test2015" [exQExtra] none).emitted.length = 1 := by
  decide

/-- C1 (amended): on a split generated WITH an annotations path, a questions
entry whose field set differs from the exact Question field set can never be
emitted (its processing always raises a fatal error — the assertion, or a
key/lookup error when `question_id` is missing or unmatched), and the
split's generation ends with a fatal error; likewise an Annotation whose
field set differs from the exact Annotation field set.  Splits without
annotations perform no field-set validation (see the counterexample). -/
theorem fieldset_validation (p : String) (qs anns : List Obj) :
    ((∃ q ∈ qs, keySetEq q questionKeys = false) →
      (generateExamples p qs (some anns)).err.isSome = true) ∧
    (∀ qa q kr, keySetEq q questionKeys = false →
      processQuestion qa p q ≠ Except.ok kr) ∧
    (∀ qa, buildQA anns = Except.ok qa →
      (∃ q ∈ qs, ∃ qid ann, PyDict.find q "question_id" = some qid ∧
        PyDict.find qa qid = some ann ∧
        keySetEq ann annotationKeys = false) →
      (generateExamples p qs (some anns)).err.isSome = true) ∧
    (∀ qa q qid ann kr, PyDict.find q "question_id" = some qid →
      PyDict.find qa qid = some ann → keySetEq ann annotationKeys = false →
      processQuestion qa p q ≠ Except.ok kr) := by
  refine ⟨?_, ?_, ?_, ?_⟩
  · rintro ⟨q, hq, hbad⟩
    cases hqa : buildQA anns with
    | error e => rw [generateExamples_some_err hqa]; rfl
    | ok qa =>
      rw [generateExamples_some_ok hqa]
      exact emitAll_err_isSome hq (processQuestion_not_ok_of_bad_q hbad)
  · intro qa q kr hbad
    exact processQuestion_not_ok_of_bad_q hbad kr
  · rintro qa hqa ⟨q, hq, qid, ann, hqid, hann, hbad⟩
    rw [generateExamples_some_ok hqa]
    exact emitAll_err_isSome hq
      (processQuestion_not_ok_of_bad_ann hqid hann hbad)
  · intro qa q qid ann kr hqid hann hbad
    exact processQuestion_not_ok_of_bad_ann hqid hann hbad kr

/-- C1 witness: instantiating the amended claim — the annotated split over
the extra-field question ends with a fatal error. -/
theorem fieldset_validation_witness :
    (generateExamples "root/val2014" [exQExtra] (some [exAnn])).err.isSome =
      true :=
  (fieldset_validation "root/val2014" [exQExtra] [exAnn]).1
    ⟨exQExtra, by decide, by decide⟩

/-- C3: with annotations, when a question's `question_id` has no entry in
the qa map, generation aborts with the fatal lookup error exactly upon
reaching that question: the questions before it are emitted, the failing
question and everything after it are not (no per-record skip). -/
theorem missing_annotation_aborts (p : String) (qs₁ qs₂ anns : List Obj)
    (qa : QAMap) (q : Obj) (qid : JVal)
    (hqa : buildQA anns = Except.ok qa)
    (hpre : ∀ q' ∈ qs₁, ∃ kr, processQuestion qa p q' = Except.ok kr)
    (hqid : PyDict.find q "question_id" = some qid)
    (hmiss : PyDict.find qa qid = none) :
    (generateExamples p (qs₁ ++ q :: qs₂) (some anns)).err =
      some (GenError.qaKeyError qid) ∧
    (generateExamples p (qs₁ ++ q :: qs₂) (some anns)).emitted.length =
      qs₁.length := by
  rw [generateExamples_some_ok hqa]
  exact emitAll_append_stop hpre (processQuestion_qaKeyError hqid hmiss)

/-- C3 witness: `exQ` is emitted, then generation dies on `exQ2`, whose
question_id 2 has no annotation. -/
theorem missing_annotation_aborts_witness :
    (generateExamples "root/val2014" ([exQ] ++ exQ2 :: []) (some [exAnn])).err =
      some (GenError.qaKeyError (JVal.jint 2)) ∧
    (generateExamples "root/val2014" ([exQ] ++ exQ2 :: [])
        (some [exAnn])).emitted.length = [exQ].length := by
  refine missing_annotation_aborts "root/val2014" [exQ] [] [exAnn] exQA exQ2
    (JVal.jint 2) rfl ?_ (by decide) (by decide)
  intro q' hq'
  rw [List.mem_singleton] at hq'
  subst hq'
  exact ⟨(JVal.jint 1, exRecordVal), rfl⟩

/-- C4: when `processQuestion` emits, the record is the union of the
question's and the annotation's fields — the annotation's value winning on
every shared key — plus the `image` path. -/
theorem merge_record_fields (qa : QAMap) (p : String) (q ann : Obj)
    (qid k : JVal) (r : Obj)
    (hqid : PyDict.find q "question_id" = some qid)
    (hann : PyDict.find qa qid = some ann)
    (hnodup : (PyDict.keys ann).Nodup)
    (hok : processQuestion qa p q = Except.ok (k, r)) :
    ∃ iid pad, PyDict.find (PyDict.update q ann) "image_id" = some iid ∧
      formatField12 iid = Except.ok pad ∧
      ∀ f : String, PyDict.find r f =
        if f = "image" then some (JVal.jstr (imageFileName p pad))
        else (PyDict.find ann f).or (PyDict.find q f) := by
  obtain ⟨qid', ann', iid, pad, h1, h2, h3, h4, h5, h6, hr, h8⟩ :=
    processQuestion_ok_spec hok
  rw [hqid] at h1
  cases h1
  rw [hann] at h2
  cases h2
  refine ⟨iid, pad, h5, h6, fun f => ?_⟩
  by_cases hf : f = "image"
  · subst hf
    rw [if_pos rfl, hr, PyDict.find_set_self]
  · rw [if_neg hf, hr, PyDict.find_set_ne hf, PyDict.find_update hnodup]

/-- C4 witness: in the spec's worked example the emitted record's
`question` field is the question's, its `question_type` the annotation's. -/
theorem merge_record_fields_witness :
    PyDict.find exRecordVal "question" = some (JVal.jstr "What?") ∧
    PyDict.find exRecordVal "question_type" = some (JVal.jstr "what") := by
  obtain ⟨iid, pad, h1, h2, h3⟩ := merge_record_fields exQA "root/val2014"
    exQ exAnn (JVal.jint 1) (JVal.jint 1) exRecordVal (by decide) (by decide)
    (by decide) rfl
  constructor
  · rw [h3 "question", if_neg (by decide)]
    decide
  · rw [h3 "question_type", if_neg (by decide)]
    decide

/-- C7: with annotations, every emitted pair's key and its record's
`question_id` both equal the source question's `question_id`, which is also
the `question_id` of the annotation merged in (pairs aligned with their
source questions by position). -/
theorem question_id_consistency (p : String) (qs anns : List Obj) (qa : QAMap)
    (hqa : buildQA anns = Except.ok qa)
    (hnd : ∀ a ∈ anns, (PyDict.keys a).Nodup) :
    List.Forall₂ (fun q kr =>
      ∃ qid ann, PyDict.find q "question_id" = some qid ∧
        PyDict.find qa qid = some ann ∧
        PyDict.find ann "question_id" = some qid ∧
        kr.1 = qid ∧ PyDict.find kr.2 "question_id" = some qid)
      (qs.take (generateExamples p qs (some anns)).emitted.length)
      (generateExamples p qs (some anns)).emitted := by
  rw [generateExamples_some_ok hqa]
  have hinv := buildQAFrom_invariant (P := fun a => a ∈ anns) anns [] qa hqa
    (fun k v hfind => Option.noConfusion hfind) (fun a ha => ha)
  refine List.Forall₂.imp ?_ (emitAll_forall₂ (processQuestion qa p) qs)
  rintro q ⟨k, r⟩ hok
  obtain ⟨qid, ann, iid, pad, h1, h2, h3, h4, h5, h6, hr, h8⟩ :=
    processQuestion_ok_spec hok
  have hinv2 := hinv qid ann h2
  have hannqid : PyDict.find ann "question_id" = some qid := hinv2.1
  have hnda : (PyDict.keys ann).Nodup := hnd ann hinv2.2
  have hrq : PyDict.find r "question_id" = some qid := by
    rw [hr, PyDict.find_set_ne (by decide), PyDict.find_update hnda, hannqid]
    rfl
  have hk : k = qid := by
    rw [hrq] at h8
    exact (Option.some.inj h8).symm
  exact ⟨qid, ann, h1, h2, hannqid, hk, hrq⟩

/-- C7 witness: the worked example, instantiated. -/
theorem question_id_consistency_witness :
    List.Forall₂ (fun q kr =>
      ∃ qid ann, PyDict.find q "question_id" = some qid ∧
        PyDict.find exQA qid = some ann ∧
        PyDict.find ann "question_id" = some qid ∧
        kr.1 = qid ∧ PyDict.find kr.2 "question_id" = some qid)
      ([exQ].take
        (generateExamples "root/val2014" [exQ] (some [exAnn])).emitted.length)
      (generateExamples "root/val2014" [exQ] (some [exAnn])).emitted :=
  question_id_consistency "root/val2014" [exQ] [exAnn] exQA rfl (by decide)

/-- C8: for every split the emitted pairs are, in order, the successful
processing results of the questions in questions-file order — with
annotations (first conjunct) and without annotations, the test/test-dev
branch (second conjunct) — and permuting the annotations file (its
question_ids being pairwise distinct) leaves the annotated split's output
unchanged: emission order does not depend on annotation order. -/
theorem emission_order (p : String) (qs anns anns' : List Obj) (qa : QAMap)
    (hqa : buildQA anns = Except.ok qa)
    (hperm : anns.Perm anns')
    (hsome : ∀ a ∈ anns, (PyDict.find a "question_id").isSome)
    (hnd : (anns.map (fun a => PyDict.find a "question_id")).Nodup) :
    List.Forall₂ (fun q kr => processQuestion qa p q = Except.ok kr)
      (qs.take (generateExamples p qs (some anns)).emitted.length)
      (generateExamples p qs (some anns)).emitted ∧
    List.Forall₂ (fun q kr => processQuestionNoAnn p q = Except.ok kr)
      (qs.take (generateExamples p qs none).emitted.length)
      (generateExamples p qs none).emitted ∧
    generateExamples p qs (some anns) = generateExamples p qs (some anns') := by
  refine ⟨?_, ?_, ?_⟩
  · rw [generateExamples_some_ok hqa]
    exact emitAll_forall₂ (processQuestion qa p) qs
  · rw [generateExamples_none]
    exact emitAll_forall₂ (processQuestionNoAnn p) qs
  · obtain ⟨qa₁, hok₁, hf₁⟩ := buildQAFrom_spec hsome []
    have hsome' : ∀ a ∈ anns', (PyDict.find a "question_id").isSome :=
      fun a ha => hsome a (hperm.mem_iff.mpr ha)
    obtain ⟨qa₂, hok₂, hf₂⟩ := buildQAFrom_spec hsome' []
    have hpt : ∀ k, PyDict.find qa₁ k = PyDict.find qa₂ k := by
      intro k
      rw [hf₁ k, hf₂ k]
      have hfe : anns.filter
            (fun a => decide (PyDict.find a "question_id" = some k)) =
          anns'.filter
            (fun a => decide (PyDict.find a "question_id" = some k)) :=
        perm_eq_of_length_le_one (hperm.filter _)
          (length_filter_le_one_of_map_nodup hnd (some k))
      rw [hfe]
    rw [generateExamples_some_ok hok₁, generateExamples_some_ok hok₂]
    exact emitAll_congr (fun q => processQuestion_congr hpt p q) qs

/-- C8 witness: the annotated and the no-annotations runs both emit in
question order, and swapping the two annotations changes nothing. -/
theorem emission_order_witness :
    List.Forall₂
      (fun q kr => processQuestion exQAB "root/val2014" q = Except.ok kr)
      ([exQ].take
        (generateExamples "root/val2014" [exQ]
          (some [exAnn, exAnn2])).emitted.length)
      (generateExamples "root/val2014" [exQ]
        (some [exAnn, exAnn2])).emitted ∧
    List.Forall₂
      (fun q kr => processQuestionNoAnn "root/val2014" q = Except.ok kr)
      ([exQ].take
        (generateExamples "root/val2014" [exQ] none).emitted.length)
      (generateExamples "root/val2014" [exQ] none).emitted ∧
    generateExamples "root/val2014" [exQ] (some [exAnn, exAnn2]) =
      generateExamples "root/val2014" [exQ] (some [exAnn2, exAnn]) :=
  emission_order "root/val2014" [exQ] [exAnn, exAnn2] [exAnn2, exAnn] exQAB
    rfl (List.Perm.swap exAnn2 exAnn []) (by decide) (by decide)

/-- C9: when every annotation has a `question_id`, building the qa map never
raises, and a duplicated `question_id` resolves to the last such annotation
in file order (last write wins, no deduplication). -/
theorem qa_last_write_wins (anns : List Obj)
    (h : ∀ a ∈ anns, (PyDict.find a "question_id").isSome) :
    ∃ qa, buildQA anns = Except.ok qa ∧ ∀ k : JVal,
      PyDict.find qa k =
        (anns.filter
          (fun a => decide (PyDict.find a "question_id" = some k))).getLast? := by
  obtain ⟨qa, hok, hfind⟩ := buildQAFrom_spec h []
  refine ⟨qa, hok, fun k => ?_⟩
  rw [hfind k]
  have he : PyDict.find ([] : QAMap) k = none := rfl
  rw [he, Option.or_none]

/-- C9 witness: with two annotations sharing question_id 1, the map holds
the second (later) one and no error is raised. -/
theorem qa_last_write_wins_witness :
    buildQA [exAnn, exAnnDup] = Except.ok [(JVal.jint 1, exAnnDup)] ∧
    PyDict.find [(JVal.jint 1, exAnnDup)] (JVal.jint 1) = some exAnnDup := by
  obtain ⟨qa, hok, hfind⟩ := qa_last_write_wins [exAnn, exAnnDup] (by decide)
  have hqa : qa = [(JVal.jint 1, exAnnDup)] := by
    have h1 : buildQA [exAnn, exAnnDup] =
        Except.ok [(JVal.jint 1, exAnnDup)] := rfl
    rw [h1] at hok
    exact (Except.ok.inj hok).symm
  rw [hqa] at hok
  exact ⟨hok, by decide⟩
